import Mathlib

/-!
Verification development for the bbclaw agent-orchestration runtime.

Shallow embedding of the orchestration core translated from the Python
sources:
  src/bbclaud/core/planner.py      (TaskSpec, Plan, Planner.create_plan)
  src/bbclaw/core/task_queue.py    (TaskQueue.execute, TaskQueue._run_task)
  src/bbclaw/core/agent.py         (AgentResult, Agent.run, Agent._complete_with_retry)
  src/bbclaw/core/orchestrator.py  (Orchestrator.run, run_direct, _synthesize)
  src/bbclaw/core/scheduler.py     (parse_schedule, compute_next_run, to_iso)
  src/bbclaw/tools/registry.py     (ToolRegistry.call, _normalize_tool_path,
                                    _build_actionable_path_error, _auto_commit)
  src/bbclaw/tools/filesystem.py   (_safe_path, _check_path)

Conventions: Python datetimes become a civil-calendar record; awaited
external effects (LLM provider, database, git, the event bus) become
explicit environment parameters; a Python function that can raise becomes
a Lean function into Except String; machine-level concerns (asyncio
scheduling interleavings) are outside the embedding, which is stated per
claim where it matters.
-/

namespace BBClaw

/-! ## Plan data model — src/bbclaud/core/planner.py

The dataclasses `TaskSpec` and `Plan` and their methods, field for field.
`status` keeps the Python string encoding: "pending" | "running" | "done"
| "failed". -/

structure TaskSpec where
  id : String
  name : String
  description : String
  agent : String
  dependsOn : List String := []
  status : String := "pending"
  result : Option String := none
  error : Option String := none
deriving Repr, DecidableEq

/-- TaskSpec.can_run: true when every dependency id is in completed_ids.
The Python set of completed ids is modelled as a list, membership only. -/
def TaskSpec.canRun (t : TaskSpec) (completedIds : List String) : Bool :=
  t.dependsOn.all (fun dep => completedIds.contains dep)

structure Plan where
  id : String
  summary : String
  tasks : List TaskSpec
  originalRequest : String
deriving Repr, DecidableEq

/-- Plan.get_ready: tasks that are pending and whose dependencies are satisfied. -/
def Plan.getReady (p : Plan) (completedIds : List String) : List TaskSpec :=
  p.tasks.filter (fun t => t.status == "pending" && t.canRun completedIds)

/-- Plan.get_pending. -/
def Plan.getPending (p : Plan) : List TaskSpec :=
  p.tasks.filter (fun t => t.status == "pending")

/-- Plan.is_complete: every task is done or failed. -/
def Plan.isComplete (p : Plan) : Bool :=
  p.tasks.all (fun t => t.status == "done" || t.status == "failed")

/-- Plan.has_failures. -/
def Plan.hasFailures (p : Plan) : Bool :=
  p.tasks.any (fun t => t.status == "failed")

/-! ## Agent result — src/bbclaw/core/agent.py lines 31-38

The AgentResult dataclass. Its fields are exactly task_id, agent_name,
success, output, tool_calls_made, error; the source declares no
tokens_used field (this matters for the orchestrator model below). -/

structure AgentResult where
  taskId : String
  agentName : String
  success : Bool
  output : String
  toolCallsMade : Nat := 0
  error : Option String := none
deriving Repr, DecidableEq

/-! ## Task queue — src/bbclaw/core/task_queue.py

TaskQueue.execute drives the plan to completion. The awaited call
`agent.run(ctx)` is the environment: per task id it either returns an
AgentResult or raises (the `except Exception` arm of _run_task). Bus
publications and the best-effort DB upsert are swallowed by the source
and do not influence control flow, so they have no counterpart here.
`asyncio.gather` runs each ready task to completion and each _run_task
mutates only its own TaskSpec, so a batch is modelled as a map over the
ready tasks. -/

inductive AgentCallOutcome where
  | ret (r : AgentResult)
  | exc (msg : String)
deriving Repr, DecidableEq

structure ExecEnv where
  /-- Membership test for `self.agents` (the agents dict). -/
  hasAgent : String → Bool
  /-- Outcome of `await agent.run(ctx)` for the task with the given id. -/
  outcome : String → AgentCallOutcome

/-- Predicate from Plan.get_ready, applied task-wise inside the loop. -/
def readyPred (completedIds : List String) (t : TaskSpec) : Bool :=
  t.status == "pending" && t.canRun completedIds

/-- TaskQueue._run_task: resolve the agent (falling back to "generalist"),
run it, and mirror the outcome into status/result/error. The transient
"running" status set at entry is always overwritten before _run_task
returns, so only the final status appears here. -/
def runTask (env : ExecEnv) (t : TaskSpec) : TaskSpec :=
  if env.hasAgent t.agent || env.hasAgent "generalist" then
    match env.outcome t.id with
    | .ret r =>
      if r.success then { t with status := "done", result := some r.output }
      else { t with status := "failed", error := r.error }
    | .exc m => { t with status := "failed", error := some m }
  else
    { t with status := "failed", error := some ("Agente \x27" ++ t.agent ++ "\x27 no disponible") }

/-- Python repr of one string, with the quote character repr prefers. -/
def pyQuoted (s : String) : String := "\x27" ++ s ++ "\x27"

/-- Comma-separated repr items of a list of strings. -/
def reprItems : List String → String
  | [] => ""
  | [x] => pyQuoted x
  | x :: y :: xs => pyQuoted x ++ ", " ++ reprItems (y :: xs)

/-- Python repr of a list of strings, as interpolated by the f-string in
the deadlock error message: ["a", "b"] renders as [\x27a\x27, \x27b\x27]. -/
def reprStrList (l : List String) : String :=
  "[" ++ reprItems l ++ "]"

/-- Deadlock error text set on each blocked task
(f-string at task_queue.py line 60). -/
def deadlockError (t : TaskSpec) : String :=
  "Deadlock: dependencias no satisfechas (" ++ reprStrList t.dependsOn ++ ")"

/-- Marking applied to the remaining pending tasks in the deadlock branch. -/
def markDeadlocked (t : TaskSpec) : TaskSpec :=
  if t.status == "pending" then
    { t with status := "failed", error := some (deadlockError t) }
  else t

/-- One batch of the loop body: every ready task runs (sequentially when
the ready set is a singleton, via asyncio.gather otherwise — the per-task
effect is identical), the others are untouched. -/
def execBatch (env : ExecEnv) (completedIds : List String) (tasks : List TaskSpec) : List TaskSpec :=
  tasks.map (fun t => if readyPred completedIds t then runTask env t else t)

/-- Ids added to completed_ids after a batch: ready tasks that ended "done". -/
def batchCompleted (env : ExecEnv) (completedIds : List String) (tasks : List TaskSpec) : List String :=
  tasks.filterMap (fun t =>
    if readyPred completedIds t then
      (if (runTask env t).status == "done" then some (runTask env t).id else none)
    else none)

/-- Helper for the termination measure: number of pending tasks. -/
def pendingCount (tasks : List TaskSpec) : Nat :=
  tasks.countP (fun t => t.status == "pending")

/-- Status check from Plan.is_complete, on a raw task list. -/
def allSettled (tasks : List TaskSpec) : Bool :=
  tasks.all (fun t => t.status == "done" || t.status == "failed")

/-- Statuses a task can hold outside the body of _run_task. -/
def statusTri (t : TaskSpec) : Prop :=
  t.status = "pending" ∨ t.status = "done" ∨ t.status = "failed"

/-- Proof term (usable both by the termination argument of the loop and
by later theorems): _run_task never leaves a task pending. -/
def runTask_not_pending (env : ExecEnv) (t : TaskSpec) :
    ((runTask env t).status == "pending") = false := by
  unfold runTask
  split
  · split
    · split <;> rfl
    · rfl
  · rfl

/-- Proof term: a batch with at least one ready task strictly decreases
the number of pending tasks (each ready task ends done or failed and no
task ever re-enters pending). -/
def execBatch_pending_lt (env : ExecEnv) (completedIds : List String)
    (tasks : List TaskSpec) (hex : ∃ t, t ∈ tasks ∧ readyPred completedIds t = true) :
    pendingCount (execBatch env completedIds tasks) < pendingCount tasks := by
  obtain ⟨w, hw, hwr⟩ := hex
  simp only [execBatch, pendingCount]
  induction tasks with
  | nil => cases hw
  | cons a l ih =>
    have haux : ∀ m : List TaskSpec,
        List.countP (fun t => t.status == "pending")
          (m.map (fun t => if readyPred completedIds t then runTask env t else t)) ≤
        List.countP (fun t => t.status == "pending") m := by
      intro m
      induction m with
      | nil => simp
      | cons b mrest ihm =>
        simp only [List.map_cons, List.countP_cons]
        by_cases hb : readyPred completedIds b = true
        · simp only [hb, if_true, runTask_not_pending env b, Bool.false_eq_true, if_false]
          omega
        · simp only [hb, Bool.false_eq_true, if_false]
          omega
    rcases List.mem_cons.mp hw with h | h
    · subst h
      simp only [List.map_cons, List.countP_cons, hwr, if_true, runTask_not_pending env w,
        Bool.false_eq_true, if_false]
      have hpend : (w.status == "pending") = true := by
        simp only [readyPred, Bool.and_eq_true] at hwr
        exact hwr.1
      simp only [hpend, if_true]
      have := haux l
      omega
    · have hlt := ih h
      simp only [List.map_cons, List.countP_cons]
      by_cases hb : readyPred completedIds a = true
      · simp only [hb, if_true, runTask_not_pending env a, Bool.false_eq_true, if_false]
        omega
      · simp only [hb, Bool.false_eq_true, if_false]
        omega

/-- The while-loop of TaskQueue.execute. When the ready set is empty the
source marks the pending tasks failed and breaks (when no task is pending
the map below is the identity, matching the bare break). Otherwise the
batch runs and completed_ids grows by the tasks that reached "done". -/
def executeLoop (env : ExecEnv) (tasks : List TaskSpec) (completedIds : List String) :
    List TaskSpec :=
  if allSettled tasks then tasks
  else if (tasks.filter (readyPred completedIds)).isEmpty then
    tasks.map markDeadlocked
  else
    executeLoop env (execBatch env completedIds tasks)
      (completedIds ++ batchCompleted env completedIds tasks)
termination_by pendingCount tasks
decreasing_by
  rename_i _hsettled hready
  refine execBatch_pending_lt env completedIds tasks ?_
  cases hf : tasks.filter (readyPred completedIds) with
  | nil => rw [hf] at hready; simp at hready
  | cons a l =>
    have ha : a ∈ tasks.filter (readyPred completedIds) := by
      rw [hf]; exact List.mem_cons_self a l
    exact ⟨a, List.mem_of_mem_filter ha, List.of_mem_filter ha⟩

/-- TaskQueue.execute: runs the loop from an empty completed set and
returns the plan with its final task statuses. -/
def TaskQueue.execute (env : ExecEnv) (p : Plan) : Plan :=
  { p with tasks := executeLoop env p.tasks [] }

/-! ## Python string primitives

The Python string operations the embedded code relies on, implemented
structurally on the character list (String.data) so that concrete
witnesses evaluate inside the kernel. -/

/-- str.startswith: character-sequence prefix test. -/
def pyStartswith (s pre : String) : Bool :=
  List.isPrefixOf pre.data s.data

/-- str.lower (the strings involved here are ASCII). -/
def pyLower (s : String) : String :=
  ⟨s.data.map Char.toLower⟩

/-- str.strip with no arguments: remove leading and trailing whitespace. -/
def pyTrim (s : String) : String :=
  ⟨((s.data.dropWhile Char.isWhitespace).reverse.dropWhile Char.isWhitespace).reverse⟩

/-- Slice s[:n]. -/
def pyTake (s : String) (n : Nat) : String :=
  ⟨s.data.take n⟩

/-- Accumulator loop of str.split on a one-character separator. -/
def splitCharAux (sep : Char) : List Char → List Char → List String
  | [], cur => [⟨cur.reverse⟩]
  | c :: cs, cur =>
    if c == sep then ⟨cur.reverse⟩ :: splitCharAux sep cs []
    else splitCharAux sep cs (c :: cur)

/-- str.split(sep) for a one-character separator: "a//b" gives
["a", "", "b"], "/a" gives ["", "a"]. -/
def pySplit (s : String) (sep : Char) : List String :=
  splitCharAux sep s.data []

/-- Scan for the substring test. -/
def containsAux (pat : List Char) : List Char → Bool
  | [] => pat.isEmpty
  | c :: cs => List.isPrefixOf pat (c :: cs) || containsAux pat cs

/-- Python membership test `pat in s`. -/
def strContains (s pat : String) : Bool :=
  containsAux pat.data s.data

/-! ## JSON values and Planner.create_plan — src/bbclaud/core/planner.py

The provider reply is parsed with json.loads; the parse outcome enters the
model as `Option Json` (none = json.JSONDecodeError). The dataclass fields
are strings; Python stores whatever JSON value is present, which the
embedding represents by `pyStr` (identity on JSON strings — no claim
exercises a non-string field value). -/

inductive Json where
  | null
  | bool (b : Bool)
  | num (n : Int)
  | str (s : String)
  | arr (elems : List Json)
  | obj (fields : List (String × Json))
deriving Repr

mutual

/-- Rendering used when a non-string JSON value lands in a string-typed
dataclass slot (Python keeps the raw object; only its later textual use
matters, and no claim depends on this case). -/
def Json.render : Json → String
  | .null => "None"
  | .bool true => "True"
  | .bool false => "False"
  | .num n => toString n
  | .str s => s
  | .arr xs => "[" ++ Json.renderElems xs ++ "]"
  | .obj fs => "\x7b" ++ Json.renderFields fs ++ "\x7d"

def Json.renderElems : List Json → String
  | [] => ""
  | [x] => x.render
  | x :: y :: xs => x.render ++ ", " ++ Json.renderElems (y :: xs)

def Json.renderFields : List (String × Json) → String
  | [] => ""
  | [(k, v)] => k ++ ": " ++ v.render
  | (k, v) :: f :: fs => k ++ ": " ++ v.render ++ ", " ++ Json.renderFields (f :: fs)

end

/-- String slot content for a JSON value (see Json.render). -/
def pyStr (j : Json) : String := j.render

/-- Field lookup on a JSON object (dict access). -/
def Json.getField (j : Json) (k : String) : Option Json :=
  match j with
  | .obj fs => fs.lookup k
  | _ => none

/-- Exception classes that matter to create_plan: the except clause
catches json.JSONDecodeError and KeyError; anything else propagates. -/
inductive PyExc where
  | keyError (msg : String)
  | typeError (msg : String)
deriving Repr, DecidableEq

def PyExc.msg : PyExc → String
  | .keyError m => m
  | .typeError m => m

/-- Markdown code-fence stripping performed on the raw reply before
json.loads (planner.py lines 127-136). -/
def stripFences (content : Option String) : String :=
  let raw := (content.getD "{}").trim
  let raw := if raw.startsWith "```" then
      let part := ((raw.splitOn "```").drop 1).headD ""
      if part.startsWith "json" then part.drop 4 else part
    else raw
  let raw := if raw.endsWith "```" then raw.dropRight 3 else raw
  raw.trim

/-- depends_on slot: t.get("depends_on", []). A non-list value would be
stored raw by Python; rendered as a singleton here (no claim reaches it). -/
def depsOf : Json → List String
  | .arr xs => xs.map pyStr
  | j => [pyStr j]

/-- One item of the "tasks" array: t["id"]/t["name"]/t["description"] raise
KeyError when missing (caught upstream → fallback plan); indexing a
non-dict item raises TypeError (uncaught). -/
def taskFromJson (j : Json) : Except PyExc TaskSpec :=
  match j with
  | .obj _ =>
    match j.getField "id", j.getField "name", j.getField "description" with
    | some i, some n, some d =>
      .ok { id := pyStr i, name := pyStr n, description := pyStr d,
            agent := pyStr ((j.getField "agent").getD (.str "generalist")),
            dependsOn := depsOf ((j.getField "depends_on").getD (.arr [])) }
    | _, _, _ => .error (.keyError "task item lacks id, name or description")
  | _ => .error (.typeError "task item is not an object")

/-- Fallback single-task plan returned when JSON parsing or task-building
raises a caught exception class (planner.py lines 163-178). -/
def fallbackPlan (userRequest planId : String) : Plan :=
  { id := planId, summary := userRequest,
    tasks := [{ id := "t1", name := "Tarea principal", description := userRequest,
                agent := "generalist" }],
    originalRequest := userRequest }

/-- Planner.create_plan after the provider call: build the Plan from the
parse outcome. data.get("tasks", []) defaults to the empty list; a
non-object reply or non-list tasks value raises an uncaught exception
class, modelled as Except.error. planId stands for str(uuid4())[:8]. -/
def createPlan (parsed : Option Json) (userRequest planId : String) : Except PyExc Plan :=
  match parsed with
  | none => .ok (fallbackPlan userRequest planId)
  | some data =>
    match data with
    | .obj _ =>
      match (data.getField "tasks").getD (.arr []) with
      | .arr ts =>
        match ts.mapM taskFromJson with
        | .ok tasks =>
          .ok { id := planId,
                summary := pyStr ((data.getField "plan_summary").getD (.str userRequest)),
                tasks := tasks, originalRequest := userRequest }
        | .error (.keyError _) => .ok (fallbackPlan userRequest planId)
        | .error e => .error e
      | _ => .error (.typeError "tasks value is not a list")
    | _ => .error (.typeError "reply JSON is not an object")

/-! ## Orchestrator — src/bbclaw/core/orchestrator.py

run / run_direct / _synthesize. Awaited collaborators enter through
OrchEnv. The steps before mode selection (last-activity update, waiting
for the improvement loop, #slug project switching, memory-context build)
rewrite no part of the returned value computation modelled here except
the memory context, which OrchEnv carries. -/

structure OrchEnv where
  /-- Membership in self.agents. -/
  hasAgent : String → Bool
  /-- Outcome of `await agent.run(ctx)`, keyed by ctx.task_description. -/
  agentOutcome : String → AgentCallOutcome
  /-- Environment of the task queue run. -/
  execEnv : ExecEnv
  /-- json.loads outcome for the planner reply to the given user input. -/
  plannerParsed : String → Option Json
  /-- str(uuid.uuid4())[:8] drawn for the plan id. -/
  planId : String
  /-- self.context_builder.build(user_input) result. -/
  memoryCtx : String

/-- Keyword list _MULTI_STEP_KEYWORDS (orchestrator.py lines 248-252). -/
def MULTI_STEP_KEYWORDS : List String :=
  ["y luego", "después", "primero", "paso 1", "paso 2",
   "1.", "2.", "además", "investiga y", "analiza y",
   "and then", "first", "step 1", "step 2", "also"]

/-- Orchestrator._is_simple_task: at most 500 characters and no
multi-step cue word in the lowercased input. -/
def isSimpleTask (userInput : String) : Bool :=
  if userInput.length > 500 then false
  else !(MULTI_STEP_KEYWORDS.any (fun kw => strContains (pyLower userInput) kw))

/-- Attribute access result.tokens_used (orchestrator.py line 279): the
AgentResult dataclass declares only task_id, agent_name, success, output,
tool_calls_made and error (agent.py lines 31-38), so Python raises
AttributeError on every instance. -/
def AgentResult.tokensUsedAttr (_r : AgentResult) : Except String Int :=
  .error "AttributeError: \x27AgentResult\x27 object has no attribute \x27tokens_used\x27"

/-- Attribute access self.task_queue.last_run_tokens (orchestrator.py line
355): TaskQueue.__init__ sets only self.agents and self._memory_context
and the class body adds nothing else, so Python raises AttributeError. -/
def taskQueueLastRunTokensAttr : Except String Int :=
  .error "AttributeError: \x27TaskQueue\x27 object has no attribute \x27last_run_tokens\x27"

/-- Python `value or default` on an optional string (empty string is falsy). -/
def pyOrStr (v : Option String) (dflt : String) : String :=
  match v with
  | some s => if s == "" then dflt else s
  | none => dflt

/-- f-string rendering of an optional string (None prints as "None"). -/
def optStr (v : Option String) : String :=
  match v with
  | some s => s
  | none => "None"

/-- Orchestrator.run_direct: single-agent dispatch. The token-accounting
line `self._last_run_tokens = result.tokens_used` runs before the
response is formed; conversation/task/embedding persistence follows it
and precedes the return. -/
def runDirect (env : OrchEnv) (userInput : String) (_memoryCtx : String) : Except String String :=
  if env.hasAgent "coder" || env.hasAgent "generalist" then
    match env.agentOutcome userInput with
    | .exc m => .error m
    | .ret result =>
      match result.tokensUsedAttr with
      | .error m => .error m
      | .ok _tokens =>
        let response := if result.success then result.output
                        else "Error: " ++ optStr result.error
        .ok response
  else .error "No hay agente disponible para modo directo"

/-- Markdown digest of done and failed task results
(orchestrator.py lines 397-402). -/
def resultsDigest (plan : Plan) : String :=
  plan.tasks.foldl (fun acc t =>
    if t.status == "done" then
      acc ++ "### " ++ t.name ++ " (agente: " ++ t.agent ++ ")\n" ++ t.result.getD "" ++ "\n\n"
    else if t.status == "failed" then
      acc ++ "### " ++ t.name ++ " — FALLÓ\nError: " ++ optStr t.error ++ "\n\n"
    else acc) ""

/-- Input handed to the synthesizer agent. -/
def synthesisInput (userInput resultsText : String) : String :=
  "Solicitud del usuario: " ++ userInput ++ "\n\nResultados de los agentes:\n" ++ resultsText

/-- Orchestrator._synthesize. The single-result shortcut requires the plan
to have exactly one task AND a done task (`len(plan.tasks) == 1 and
done_tasks`); otherwise the digest goes to the "orchestrator" agent when
registered (its raised exceptions propagate), falling back to the raw
digest on a failed synthesis or a missing agent. -/
def synthesize (env : OrchEnv) (userInput : String) (plan : Plan) : Except String String :=
  let doneTasks := plan.tasks.filter (fun t => t.status == "done")
  let digestPath : Except String String :=
    let resultsText := resultsDigest plan
    if resultsText == "" then .ok "No se obtuvieron resultados de los agentes."
    else if env.hasAgent "orchestrator" then
      match env.agentOutcome (synthesisInput userInput resultsText) with
      | .ret r => .ok (if r.success then r.output else resultsText)
      | .exc m => .error m
    else .ok resultsText
  match doneTasks with
  | d :: _ => if plan.tasks.length == 1 then .ok (pyOrStr d.result "(sin resultado)") else digestPath
  | [] => digestPath

/-- Orchestrator.run: mode selection, then either run_direct or the
planner/executor/synthesis pipeline. In the planned branch the
token-accounting line `self._last_run_tokens = self.task_queue.last_run_tokens`
sits between execution and synthesis. -/
def orchestratorRun (env : OrchEnv) (userInput : String) : Except String String :=
  let memoryCtx := env.memoryCtx
  if isSimpleTask userInput then runDirect env userInput memoryCtx
  else
    match createPlan (env.plannerParsed userInput) userInput env.planId with
    | .error e => .error e.msg
    | .ok plan =>
      let executed := TaskQueue.execute env.execEnv plan
      match taskQueueLastRunTokensAttr with
      | .error m => .error m
      | .ok _tokens =>
        match synthesize env userInput executed with
        | .error m => .error m
        | .ok response => .ok response

/-! ## Tool registry — src/bbclaw/tools/registry.py

ToolRegistry.call and its helpers. A handler models the whole awaited
`await tool.func(**kwargs)` expression: Except.error covers every raised
exception, including the TypeError of a keyword-argument mismatch, both
of which occur inside the try of call. Keyword argument values are JSON
values as decoded from the model's tool-call arguments. -/

def READ_TOOLS_WITH_PATH : List String := ["read_file", "read_source"]

def MUTATING_TOOLS : List String :=
  ["write_file", "write_source", "append_file", "delete_file", "make_dir"]

/-- str(Path(s)) on POSIX: spurious slashes and single-dot components are
collapsed, ".." is kept, the empty path prints as ".". -/
def pyPathStr (s : String) : String :=
  if s == "" then "."
  else
    let isAbs := pyStartswith s "/"
    let comps := (pySplit s '/').filter (fun c => c != "" && c != ".")
    if comps.isEmpty then (if isAbs then "/" else ".")
    else (if isAbs then "/" else "") ++ String.intercalate "/" comps

/-- _normalize_tool_path: trim, collapse the empty/dot spellings to ".",
otherwise canonicalise through Path. JSON null plays the role of Python
None. -/
def normalizeToolPath (pathArg : Option Json) : String :=
  let raw := match pathArg with
    | none => "None"
    | some .null => ""
    | some j => pyStr j
  let stripped := pyTrim raw
  if stripped == "" || stripped == "." || stripped == "./" || stripped == ".\\" then "."
  else pyPathStr stripped

/-- f-string rendering of the kwargs value under "path" (absent → None). -/
def renderKw (v : Option Json) : String :=
  match v with
  | none => "None"
  | some .null => "None"
  | some j => pyStr j

/-- _build_actionable_path_error: enrich not-found read errors with the
path as found in kwargs (which call has already rebound to the
normalized form), the re-normalized path, optional hints and the
list_files/check_path suggestion. -/
def buildActionablePathError (kwargs : List (String × Json)) (errorMsg : String) : String :=
  let original := kwargs.lookup "path"
  let normalized := normalizeToolPath original
  let hints : List String :=
    (if normalized == "." then ["el path parece vacío o apunta al directorio actual"] else []) ++
    (if strContains normalized ".." || strContains normalized "~" then
       ["evitá usar \x27..\x27 o \x27~\x27; pasá una ruta relativa al workspace"] else [])
  if strContains errorMsg "Archivo no encontrado" || strContains errorMsg "No such file" ||
      strContains (pyLower errorMsg) "not found" then
    let base := errorMsg ++ ". Path recibido=\x27" ++ renderKw original ++
      "\x27, normalizado=\x27" ++ normalized ++ "\x27."
    let suggestion :=
      "Sugerencia: usá list_files/check_path antes de read_file/read_source para confirmar la ruta exacta."
    if !hints.isEmpty then
      base ++ " Posible causa: " ++ String.intercalate "; " hints ++ ". " ++ suggestion
    else base ++ " " ++ suggestion
  else errorMsg

structure ToolResult where
  success : Bool
  output : Option String := none
  error : Option String := none
deriving Repr, DecidableEq

/-- ToolResult.to_str. -/
def ToolResult.toStr (tr : ToolResult) : String :=
  if tr.success then optStr tr.output else "ERROR: " ++ optStr tr.error

structure ToolDefinition where
  name : String
  description : String
  handler : List (String × Json) → Except String String
  parameters : Json := .obj []

/-- Dict lookup self._tools[name]; registries here carry one entry per
name (register overwrites, last writer wins). -/
def lookupTool (reg : List ToolDefinition) (toolName : String) : Option ToolDefinition :=
  reg.find? (fun td => td.name == toolName)

/-- Rebinding \x7b**kwargs, "path": normalized\x7d. -/
def setPath (kwargs : List (String × Json)) (v : String) : List (String × Json) :=
  kwargs.map (fun kv => if kv.1 == "path" then (kv.1, Json.str v) else kv)

/-- _auto_commit: the entire subprocess interaction is wrapped in
try/except pass, so every git outcome (success, failure, timeout)
collapses to unit and can never influence the caller. -/
def autoCommit (_toolName : String) (_kwargs : List (String × Json))
    (_gitOutcome : Except String Unit) : Unit := ()

/-- Kwargs as dispatched: for read tools carrying "path", the value is
rebound to its normalized form before the handler runs (call lines
143-144); note the except-branch later sees this rebound mapping. -/
def normalizedKwargs (toolName : String) (kwargs : List (String × Json)) :
    List (String × Json) :=
  if READ_TOOLS_WITH_PATH.contains toolName && (kwargs.lookup "path").isSome then
    setPath kwargs (normalizeToolPath (kwargs.lookup "path"))
  else kwargs

/-- ToolRegistry.call. -/
def ToolRegistry.call (reg : List ToolDefinition) (autoCommitEnabled : Bool)
    (gitOutcome : Except String Unit) (toolName : String)
    (kwargs : List (String × Json)) : ToolResult :=
  match lookupTool reg toolName with
  | none =>
    { success := false, output := none,
      error := some ("Herramienta \x27" ++ toolName ++ "\x27 no encontrada") }
  | some tool =>
    let kwargs := normalizedKwargs toolName kwargs
    match tool.handler kwargs with
    | .ok result =>
      let tr : ToolResult := { success := true, output := some result }
      let _ := if autoCommitEnabled && MUTATING_TOOLS.contains toolName then
          autoCommit toolName kwargs gitOutcome else ()
      tr
    | .error e =>
      let errorMsg := if READ_TOOLS_WITH_PATH.contains toolName then
          buildActionablePathError kwargs e
        else e
      { success := false, output := none, error := some errorMsg }

/-- Parameter-name summary used by describe_for_prompt. -/
def paramNames (parameters : Json) : String :=
  match parameters.getField "properties" with
  | some (.obj props) =>
    if props.isEmpty then "ninguno" else String.intercalate ", " (props.map (fun p => p.1))
  | _ => "ninguno"

/-- ToolRegistry.describe_for_prompt. -/
def describeForPrompt (reg : List ToolDefinition) : String :=
  if reg.isEmpty then "No hay herramientas disponibles."
  else String.intercalate "\n" (reg.map (fun tool =>
    "- " ++ tool.name ++ "(" ++ paramNames tool.parameters ++ "): " ++ tool.description))

/-! ## Agent loop — src/bbclaw/core/agent.py

Agent.run and Agent._complete_with_retry. The provider is a trace: call
number n (process-wide, starting at 0 for the run) yields either an
LLMResponse or a raised exception (httpx.HTTPStatusError with a status
and body, or a network/timeout error). Messages are carried as built by
the loop; their conversion to the wire shape does not influence the
trace-indexed outcomes. -/

structure ToolCall where
  id : String
  name : String
  arguments : List (String × Json)

structure LLMResponse where
  content : Option String
  toolCalls : List ToolCall := []
  finishReason : String := "stop"
  usage : List (String × Int) := []

inductive ProviderCallOutcome where
  | ok (resp : LLMResponse)
  | httpStatus (status : Nat) (body : String)
  | netError (msg : String)

structure Message where
  role : String
  content : Option String := none
  toolCallId : Option String := none
  name : Option String := none
  /-- Carrier of the raw tool calls stored via msg.__dict__. -/
  rawToolCalls : Option (List ToolCall) := none

structure RetryOut where
  result : Except String LLMResponse
  callsMade : Nat
  sleeps : List Nat

/-- One attempt of _complete_with_retry plus its retries: remaining =
max_retries - attempt, and a sleep of 2^attempt seconds precedes every
retry. 4xx statuses raise immediately (body truncated to 300 chars);
transient failures re-raise the last error once retries run out. -/
def retryAux (provider : Nat → ProviderCallOutcome) (callIdx attempt remaining : Nat) :
    RetryOut :=
  match provider callIdx with
  | .ok resp => { result := .ok resp, callsMade := 1, sleeps := [] }
  | .httpStatus status body =>
    if 400 ≤ status && status < 500 then
      { result := .error ("Error del proveedor (" ++ toString status ++ "): " ++ pyTake body 300),
        callsMade := 1, sleeps := [] }
    else
      let lastError := "Error del proveedor (" ++ toString status ++ "): " ++ pyTake body 200
      match remaining with
      | 0 => { result := .error lastError, callsMade := 1, sleeps := [] }
      | r + 1 =>
        let rest := retryAux provider (callIdx + 1) (attempt + 1) r
        { result := rest.result, callsMade := rest.callsMade + 1,
          sleeps := 2 ^ attempt :: rest.sleeps }
  | .netError msg =>
    match remaining with
    | 0 => { result := .error msg, callsMade := 1, sleeps := [] }
    | r + 1 =>
      let rest := retryAux provider (callIdx + 1) (attempt + 1) r
      { result := rest.result, callsMade := rest.callsMade + 1,
        sleeps := 2 ^ attempt :: rest.sleeps }

/-- Agent._complete_with_retry with its default max_retries = 2. -/
def completeWithRetry (provider : Nat → ProviderCallOutcome) (callIdx : Nat)
    (maxRetries : Nat := 2) : RetryOut :=
  retryAux provider callIdx 0 maxRetries

structure AgentEnv where
  provider : Nat → ProviderCallOutcome
  registry : List ToolDefinition
  autoCommitEnabled : Bool
  gitOutcome : Except String Unit

/-- Classification used by the retry policy: a provider-call outcome the
loop retries (5xx statuses, network and timeout errors), as opposed to a
response or a 4xx client error. -/
def isTransientB : ProviderCallOutcome → Bool
  | .ok _ => false
  | .httpStatus s _ => !(decide (400 ≤ s) && decide (s < 500))
  | .netError _ => true

structure AgentRunOut where
  /-- The returned AgentResult, or the exception that left Agent.run. -/
  result : Except String AgentResult
  providerCalls : Nat
  sleeps : List Nat
  messages : List Message

/-- Error text of the exhausted-iterations AgentResult (agent.py line 153). -/
def maxIterationsError (maxIterations : Nat) : String :=
  "Máximo de iteraciones (" ++ toString maxIterations ++ ") alcanzado sin respuesta final"

/-- The for-loop of Agent.run; itersLeft counts the remaining range
entries. A response with tool calls appends the assistant carrier message
and one tool message per call (in emission order) and continues; a
response without tool calls returns success; an exception from
_complete_with_retry leaves run. -/
def agentLoop (env : AgentEnv) (agentName taskId : String) (maxIterations : Nat)
    (callIdx : Nat) (messages : List Message) (toolCallsCount : Nat)
    (callsAcc : Nat) (sleepsAcc : List Nat) : (itersLeft : Nat) → AgentRunOut
  | 0 =>
    let ar : AgentResult :=
      { taskId := taskId, agentName := agentName, success := false, output := "",
        toolCallsMade := toolCallsCount, error := some (maxIterationsError maxIterations) }
    { result := .ok ar, providerCalls := callsAcc, sleeps := sleepsAcc, messages := messages }
  | n + 1 =>
    let r := completeWithRetry env.provider callIdx 2
    match r.result with
    | .error e =>
      { result := .error e, providerCalls := callsAcc + r.callsMade,
        sleeps := sleepsAcc ++ r.sleeps, messages := messages }
    | .ok resp =>
      if resp.toolCalls.isEmpty then
        let ar : AgentResult :=
          { taskId := taskId, agentName := agentName, success := true,
            output := resp.content.getD "", toolCallsMade := toolCallsCount, error := none }
        { result := .ok ar, providerCalls := callsAcc + r.callsMade,
          sleeps := sleepsAcc ++ r.sleeps, messages := messages }
      else
        let assistantMsg : Message := { role := "assistant", rawToolCalls := some resp.toolCalls }
        let toolMsgs := resp.toolCalls.map (fun tc =>
          let res := ToolRegistry.call env.registry env.autoCommitEnabled env.gitOutcome
            tc.name tc.arguments
          { role := "tool", content := some res.toStr, toolCallId := some tc.id,
            name := some tc.name : Message })
        agentLoop env agentName taskId maxIterations (callIdx + r.callsMade)
          (messages ++ [assistantMsg] ++ toolMsgs) (toolCallsCount + resp.toolCalls.length)
          (callsAcc + r.callsMade) (sleepsAcc ++ r.sleeps) n

/-- Agent.system_prompt. -/
def systemPrompt (reg : List ToolDefinition)
    (agentName description taskDescription memoryContext : String) : String :=
  let base := "Eres " ++ agentName ++ ", " ++ description ++
    "\n\nHoy tienes la siguiente tarea: " ++ taskDescription ++
    "\n\nHerramientas disponibles:\n" ++ describeForPrompt reg ++
    "\n\nReglas:\n- Usa la herramienta más específica disponible para cada acción" ++
    "\n- Sé preciso y conciso en tus respuestas finales" ++
    "\n- Siempre verifica el resultado de los comandos antes de continuar"
  if memoryContext != "" then base ++ "\n\n--- Contexto relevante ---\n" ++ memoryContext
  else base

/-- Agent.run: seed the message list and enter the loop with the full
iteration budget. -/
def Agent.run (env : AgentEnv) (agentName description : String) (maxIterations : Nat)
    (taskId taskDescription memoryContext : String) : AgentRunOut :=
  let messages : List Message :=
    [{ role := "system",
       content := some (systemPrompt env.registry agentName description taskDescription memoryContext) },
     { role := "user", content := some taskDescription }]
  agentLoop env agentName taskId maxIterations 0 messages 0 0 [] maxIterations

/-! ## Workspace sandbox — src/bbclaw/tools/filesystem.py

_safe_path and _check_path. Absolute paths are component lists; resolve()
is modelled lexically (the path-containment rule of the spec is stated
lexically) on POSIX separators. -/

/-- Lexical resolution of path components against an absolute base:
empty and "." components vanish, ".." pops (staying at the root), others
append. -/
def resolveComps (base : List String) (comps : List String) : List String :=
  comps.foldl (fun acc c =>
    if c == "" || c == "." then acc
    else if c == ".." then acc.dropLast
    else acc ++ [c]) base

/-- (base / relative).resolve(): an absolute relative_path replaces the
base, per pathlib joining. -/
def resolveUnder (base : List String) (rel : String) : List String :=
  if pyStartswith rel "/" then resolveComps [] (pySplit rel '/')
  else resolveComps base (pySplit rel '/')

/-- Slash-prefixed component rendering ("/a" ++ "/ws" ...). -/
def renderComps : List String → String
  | [] => ""
  | c :: cs => "/" ++ c ++ renderComps cs

/-- String form of an absolute path (str of a resolved Path): "/" for the
filesystem root, "/a/ws" style otherwise. -/
def renderAbs (comps : List String) : String :=
  if comps.isEmpty then "/" else renderComps comps

/-- _safe_path: join, resolve, then accept iff str(target) starts with
str(base) — a string-prefix test, performed before any handler I/O. -/
def safePath (root : List String) (relativePath : String) : Except String (List String) :=
  let target := resolveUnder root relativePath
  if pyStartswith (renderAbs target) (renderAbs root) then .ok target
  else .error ("Acceso denegado: \x27" ++ relativePath ++ "\x27 está fuera del workspace")

/-- _check_path: an absolute input is inspected as given (Path() only
collapses dots and duplicate slashes, applies no containment test and no
resolve); a relative input resolves under the workspace root. -/
def checkPathTarget (root : List String) (path : String) : List String :=
  if pyStartswith path "/" then (pySplit path '/').filter (fun c => c != "" && c != ".")
  else resolveUnder root path

/-! ## Scheduler algebra — src/bbclaw/core/scheduler.py

Pure recurrence computation. A UTC-aware datetime is a civil record DT;
comparisons between UTC datetimes coincide with lexicographic comparison
of the civil fields, captured by the injective order-preserving DT.key.
timedelta arithmetic on aware UTC datetimes is exact 86400-second days
(no DST, no leap seconds in Unix time), modelled by addOneDay/addUsec on
civil fields. to_iso renders with strftime("%Y-%m-%dT%H:%M:%SZ"), i.e.
microseconds are dropped: the DT returned by computeNextRun is the
instant the emitted ISO string denotes, which is truncSec of the datetime
the Python code computes. Years are left unbounded above (datetime stops
at 9999, where Python raises OverflowError; no claim reaches it). -/

structure DT where
  year : Nat
  month : Nat
  day : Nat
  hour : Nat
  minute : Nat
  second : Nat
  usec : Nat
deriving Repr, DecidableEq

def isLeap (y : Nat) : Bool :=
  (y % 4 == 0 && y % 100 != 0) || y % 400 == 0

def daysInMonth (y m : Nat) : Nat :=
  if m == 2 then (if isLeap y then 29 else 28)
  else if m == 4 || m == 6 || m == 9 || m == 11 then 30
  else 31

/-- Field ranges of a datetime value (year ≥ 1, month 1-12, valid day,
time fields in range, microseconds below one second). -/
def DT.valid (t : DT) : Prop :=
  1 ≤ t.year ∧ 1 ≤ t.month ∧ t.month ≤ 12 ∧
  1 ≤ t.day ∧ t.day ≤ daysInMonth t.year t.month ∧
  t.hour ≤ 23 ∧ t.minute ≤ 59 ∧ t.second ≤ 59 ∧ t.usec ≤ 999999

instance (t : DT) : Decidable t.valid := by
  unfold DT.valid
  infer_instance

/-- Injective microsecond-resolution order key: lexicographic in the civil
fields for valid values, hence the instant order of UTC datetimes. -/
def DT.key (t : DT) : Nat :=
  t.usec + 1000000 * (t.second + 60 * (t.minute + 60 * (t.hour + 24 * (t.day + 32 * (t.month + 13 * t.year)))))

/-- Date part of the key. -/
def DT.dateKey (t : DT) : Nat :=
  t.day + 32 * (t.month + 13 * t.year)

/-- Time-of-day in microseconds. -/
def DT.todKey (t : DT) : Nat :=
  ((t.hour * 60 + t.minute) * 60 + t.second) * 1000000 + t.usec

/-- Calendar successor day (what adding timedelta(days=1) does to the
civil fields of a UTC datetime). -/
def addOneDay (t : DT) : DT :=
  if t.day < daysInMonth t.year t.month then { t with day := t.day + 1 }
  else if t.month < 12 then { t with month := t.month + 1, day := 1 }
  else { t with year := t.year + 1, month := 1, day := 1 }

def addDays : Nat → DT → DT
  | 0, t => t
  | n + 1, t => addDays n (addOneDay t)

/-- timedelta addition of a nonnegative number of microseconds: carry the
time of day into whole days. -/
def addUsec (t : DT) (us : Nat) : DT :=
  let tod := t.todKey + us
  let days := tod / 86400000000
  let rem := tod % 86400000000
  addDays days
    { t with hour := rem / 3600000000,
             minute := rem / 60000000 % 60,
             second := rem / 1000000 % 60,
             usec := rem % 1000000 }

/-- Days in months strictly before m (for toordinal). -/
def monthsBefore (y m : Nat) : Nat :=
  ((List.range m).drop 1).foldl (fun acc k => acc + daysInMonth y k) 0

/-- date.toordinal(): proleptic Gregorian ordinal, 0001-01-01 is day 1. -/
def toOrdinal (t : DT) : Nat :=
  365 * (t.year - 1) + (t.year - 1) / 4 - (t.year - 1) / 100 + (t.year - 1) / 400 +
    monthsBefore t.year t.month + t.day

/-- datetime.weekday(): Monday is 0; 0001-01-01 was a Monday. -/
def DT.weekday (t : DT) : Nat :=
  (toOrdinal t - 1) % 7

/-- The _WEEKDAYS table. -/
def WEEKDAYS : List (String × Nat) :=
  [("monday", 0), ("tuesday", 1), ("wednesday", 2), ("thursday", 3),
   ("friday", 4), ("saturday", 5), ("sunday", 6)]

/-- Schedule specs after field extraction. interval carries its increment
at timedelta resolution: timedelta(minutes=m) rounds m · 6·10^7 to whole
microseconds, so the increment is a Nat — and it is 0 for sub-microsecond
positive floats (e.g. minutes = 1e-9), which the validation accepts. -/
inductive Schedule where
  | once (at_ : DT)
  | interval (minutesUs : Nat)
  | daily (h mi : Nat)
  | weekly (h mi : Nat) (day : String)
  | monthly (h mi : Nat) (dayOfMonth : Nat)
deriving Repr, DecidableEq

/-- parse_schedule acceptance: once needs a parseable instant; interval
needs minutes > 0, which constrains the rounded timedelta increment not
at all (any Nat, including 0, arises from some accepted positive float);
daily/weekly/monthly validate HH:MM ranges, the weekday name, and
day_of_month in [1, 28]. -/
def Schedule.parseAccepted : Schedule → Prop
  | .once at_ => at_.valid
  | .interval _ => True
  | .daily h mi => h ≤ 23 ∧ mi ≤ 59
  | .weekly h mi day => (h ≤ 23 ∧ mi ≤ 59) ∧ (WEEKDAYS.lookup (pyLower day)).isSome
  | .monthly h mi dom => (h ≤ 23 ∧ mi ≤ 59) ∧ 1 ≤ dom ∧ dom ≤ 28

instance (s : Schedule) : Decidable s.parseAccepted := by
  cases s <;> (unfold Schedule.parseAccepted; infer_instance)

/-- Whole-second truncation performed by to_iso. -/
def truncSec (t : DT) : DT := { t with usec := 0 }

/-- compute_next_run(spec, after), returning the instant denoted by the
emitted ISO string (truncSec of the computed datetime), or none. The
weekday lookup default is unreachable for parse-accepted specs (Python
would raise KeyError there). -/
def computeNextRun (spec : Schedule) (after : DT) : Option DT :=
  match spec with
  | .once at_ => if after.key < at_.key then some (truncSec at_) else none
  | .interval us => some (truncSec (addUsec after us))
  | .daily h mi =>
    let c := { after with hour := h, minute := mi, second := 0, usec := 0 }
    some (if c.key ≤ after.key then addDays 1 c else c)
  | .weekly h mi day =>
    let targetDay := (WEEKDAYS.lookup (pyLower day)).getD 0
    let daysAhead := (targetDay + 7 - after.weekday) % 7
    let c := addDays daysAhead { after with hour := h, minute := mi, second := 0, usec := 0 }
    some (if c.key ≤ after.key then addDays 7 c else c)
  | .monthly h mi dom =>
    let c := { after with day := dom, hour := h, minute := mi, second := 0, usec := 0 }
    some (if c.key ≤ after.key then
            (if after.month == 12 then { c with year := after.year + 1, month := 1 }
             else { c with month := after.month + 1 })
          else c)

/-! ## Concrete instances used by witnesses and counterexamples -/

def taskAW : TaskSpec :=
  { id := "t1", name := "a", description := "d", agent := "coder" }

def taskBW : TaskSpec :=
  { id := "t2", name := "b", description := "d", agent := "coder", dependsOn := ["t1"] }

def planTwoW : Plan :=
  { id := "p", summary := "s", tasks := [taskAW, taskBW], originalRequest := "r" }

def envOkW : ExecEnv :=
  { hasAgent := fun n => n == "coder",
    outcome := fun tid => .ret { taskId := tid, agentName := "coder", success := true, output := "OK" } }

def taskBlockedW : TaskSpec :=
  { id := "t1", name := "uno", description := "d", agent := "coder", dependsOn := ["t0"] }

def envNoneW : ExecEnv :=
  { hasAgent := fun _ => false, outcome := fun _ => .exc "boom" }

def dataEmptyTasksW : List (String × Json) :=
  [("plan_summary", .str "s"), ("tasks", .arr [])]

def taskDoneW : TaskSpec :=
  { id := "t1", name := "uno", description := "d", agent := "coder",
    status := "done", result := some "A" }

def taskFailedW : TaskSpec :=
  { id := "t2", name := "dos", description := "d", agent := "coder",
    status := "failed", error := some "boom" }

def planMixedW : Plan :=
  { id := "p", summary := "s", tasks := [taskDoneW, taskFailedW], originalRequest := "req" }

def planOneW : Plan :=
  { id := "p1", summary := "s", tasks := [taskDoneW], originalRequest := "r" }

def arSynthW : AgentResult :=
  { taskId := "s", agentName := "orchestrator", success := true, output := "SYNTH" }

def envSynthW : OrchEnv :=
  { hasAgent := fun n => n == "orchestrator" || n == "coder",
    agentOutcome := fun _ => .ret arSynthW,
    execEnv := envNoneW, plannerParsed := fun _ => none, planId := "pid", memoryCtx := "" }

def agentNetEnvW : AgentEnv :=
  { provider := fun _ => .netError "network down", registry := [],
    autoCommitEnabled := false, gitOutcome := .ok () }

def respToolW : LLMResponse :=
  { content := none, toolCalls := [{ id := "tc1", name := "sample", arguments := [] }] }

def agentToolEnvW : AgentEnv :=
  { provider := fun _ => .ok respToolW,
    registry := [], autoCommitEnabled := false, gitOutcome := .ok () }

def agent401EnvW : AgentEnv :=
  { provider := fun _ => .httpStatus 401 "unauthorized", registry := [],
    autoCommitEnabled := false, gitOutcome := .ok () }

def arMaxItersW : AgentResult :=
  { taskId := "t1", agentName := "coder", success := false, output := "",
    toolCallsMade := 2, error := some (maxIterationsError 2) }

def pNetW : Nat → ProviderCallOutcome := fun _ => .netError "boom"

def onceHalfW : DT := ⟨2024, 1, 1, 0, 0, 0, 500000⟩

def afterZeroW : DT := ⟨2024, 1, 1, 0, 0, 0, 0⟩

def dailyAfterW : DT := ⟨2024, 1, 20, 11, 0, 0, 0⟩

def dailyNextW : DT := ⟨2024, 1, 21, 10, 0, 0, 0⟩

def readFileNFW : ToolDefinition :=
  { name := "read_file", description := "d",
    handler := fun _ => .error "Archivo no encontrado: a" }

def enrichedMsgW : String :=
  "Archivo no encontrado: a. Path recibido=\x27a\x27, normalizado=\x27a\x27. Sugerencia: usá list_files/check_path antes de read_file/read_source para confirmar la ruta exacta."

/-! ## Theorems -/

/-- _run_task leaves its task done or failed, whatever the agent did. -/
theorem runTask_settles (env : ExecEnv) (t : TaskSpec) :
    (runTask env t).status = "done" ∨ (runTask env t).status = "failed" := by
  unfold runTask
  split
  · split
    · split
      · exact Or.inl rfl
      · exact Or.inr rfl
    · exact Or.inr rfl
  · exact Or.inr rfl

/-- Generalized progress invariant of the execute loop: starting from
tasks whose statuses lie in the pending/done/failed set, the loop leaves
every task done or failed. -/
theorem executeLoop_settles :
    ∀ (n : Nat) (env : ExecEnv) (tasks : List TaskSpec) (completedIds : List String),
      pendingCount tasks ≤ n → (∀ t ∈ tasks, statusTri t) →
      ∀ t ∈ executeLoop env tasks completedIds, t.status = "done" ∨ t.status = "failed" := by
  intro n
  induction n with
  | zero =>
    intro env tasks completedIds hpc hinv t ht
    have hset : allSettled tasks = true := by
      unfold allSettled
      rw [List.all_eq_true]
      intro x hx
      rcases hinv x hx with hp | hd | hf
      · exfalso
        have h0 : List.countP (fun s => s.status == "pending") tasks = 0 := Nat.le_zero.mp hpc
        have hx0 := List.countP_eq_zero.mp h0 x hx
        simp [hp] at hx0
      · simp [hd]
      · simp [hf]
    unfold executeLoop at ht
    rw [if_pos hset] at ht
    have := List.all_eq_true.mp hset t ht
    simpa using this
  | succ n ih =>
    intro env tasks completedIds hpc hinv t ht
    unfold executeLoop at ht
    by_cases hset : allSettled tasks = true
    · rw [if_pos hset] at ht
      have := List.all_eq_true.mp hset t ht
      simpa using this
    · rw [if_neg hset] at ht
      by_cases hrdy : (tasks.filter (readyPred completedIds)).isEmpty = true
      · rw [if_pos hrdy] at ht
        obtain ⟨s, hs, hst⟩ := List.mem_map.mp ht
        subst hst
        unfold markDeadlocked
        by_cases hp : (s.status == "pending") = true
        · rw [if_pos hp]; exact Or.inr rfl
        · rw [if_neg hp]
          rcases hinv s hs with h1 | h2 | h3
          · exact absurd (by simp [h1]) hp
          · exact Or.inl h2
          · exact Or.inr h3
      · rw [if_neg hrdy] at ht
        refine ih env _ _ ?_ ?_ t ht
        · have hex : ∃ x, x ∈ tasks ∧ readyPred completedIds x = true := by
            cases hf : tasks.filter (readyPred completedIds) with
            | nil => rw [hf] at hrdy; simp at hrdy
            | cons a l =>
              have ha : a ∈ tasks.filter (readyPred completedIds) := by
                rw [hf]; exact List.mem_cons_self a l
              exact ⟨a, List.mem_of_mem_filter ha, List.of_mem_filter ha⟩
          have := execBatch_pending_lt env completedIds tasks hex
          omega
        · intro x hx
          unfold execBatch at hx
          obtain ⟨s, hs, hsx⟩ := List.mem_map.mp hx
          subst hsx
          by_cases hb : readyPred completedIds s = true
          · rw [if_pos hb]
            rcases runTask_settles env s with h | h
            · exact Or.inr (Or.inl h)
            · exact Or.inr (Or.inr h)
          · rw [if_neg hb]
            exact hinv s hs

/-- C3: for every plan starting from pending tasks, with arbitrary agent
outcomes (success, failure, raised exception), TaskQueue.execute
terminates (it is a total function, by the well-founded recursion of
executeLoop on the number of pending tasks) and leaves every task with
status "done" or "failed" — none stays "pending" or "running". -/
theorem C3_dag_progress (env : ExecEnv) (p : Plan)
    (hpend : ∀ t ∈ p.tasks, t.status = "pending") :
    ∀ t ∈ (TaskQueue.execute env p).tasks, t.status = "done" ∨ t.status = "failed" := by
  intro t ht
  unfold TaskQueue.execute at ht
  exact executeLoop_settles (pendingCount p.tasks) env p.tasks [] le_rfl
    (fun x hx => Or.inl (hpend x hx)) t ht

/-- Witness for C3: a two-task dependent plan whose agent calls succeed. -/
theorem C3_dag_progress_witness :
    (∀ t ∈ planTwoW.tasks, t.status = "pending") ∧
    (∀ t ∈ (TaskQueue.execute envOkW planTwoW).tasks,
      t.status = "done" ∨ t.status = "failed") :=
  ⟨by decide, C3_dag_progress envOkW planTwoW (by decide)⟩

/-- Every member of a string list is quoted somewhere inside its
repr-style item rendering. -/
theorem reprItems_mem : ∀ (l : List String) (d : String), d ∈ l →
    ∃ p q, reprItems l = p ++ pyQuoted d ++ q := by
  intro l
  induction l with
  | nil => intro d hd; cases hd
  | cons x xs ih =>
    intro d hd
    cases xs with
    | nil =>
      have hx : d = x := List.mem_singleton.mp hd
      subst hx
      refine ⟨"", "", ?_⟩
      show reprItems [d] = "" ++ pyQuoted d ++ ""
      simp [reprItems]
    | cons y ys =>
      rcases List.mem_cons.mp hd with h | h
      · subst h
        refine ⟨"", ", " ++ reprItems (y :: ys), ?_⟩
        show reprItems (d :: y :: ys) = "" ++ pyQuoted d ++ (", " ++ reprItems (y :: ys))
        simp [reprItems, String.append_assoc]
      · obtain ⟨p, q, hpq⟩ := ih d h
        refine ⟨pyQuoted x ++ ", " ++ p, q, ?_⟩
        show reprItems (x :: y :: ys) = pyQuoted x ++ ", " ++ p ++ pyQuoted d ++ q
        rw [show reprItems (x :: y :: ys) = pyQuoted x ++ ", " ++ reprItems (y :: ys) from rfl, hpq]
        simp [String.append_assoc]

/-- C4: whenever the loop body sees an empty ready set with the plan not
yet settled, it returns at once (the loop exits) with every pending task
marked failed, and each such task's error message quotes every one of its
unsatisfied dependency ids. -/
theorem C4_deadlock_closure (env : ExecEnv) (tasks : List TaskSpec) (completedIds : List String)
    (hset : allSettled tasks = false)
    (hrdy : tasks.filter (readyPred completedIds) = []) :
    executeLoop env tasks completedIds = tasks.map markDeadlocked ∧
    ∀ t ∈ tasks, t.status = "pending" →
      (markDeadlocked t).status = "failed" ∧
      (markDeadlocked t).error = some (deadlockError t) ∧
      ∀ d ∈ t.dependsOn, d ∉ completedIds →
        ∃ p q, deadlockError t = p ++ pyQuoted d ++ q := by
  constructor
  · unfold executeLoop
    rw [if_neg (by simp [hset]), if_pos (by simp [hrdy])]
  · intro t ht hp
    have hq : (t.status == "pending") = true := by simp [hp]
    refine ⟨?_, ?_, ?_⟩
    · unfold markDeadlocked; rw [if_pos hq]
    · unfold markDeadlocked; rw [if_pos hq]
    · intro d hd _
      obtain ⟨p, q, hpq⟩ := reprItems_mem t.dependsOn d hd
      refine ⟨"Deadlock: dependencias no satisfechas ([" ++ p, q ++ "])", ?_⟩
      unfold deadlockError reprStrList
      rw [hpq]
      simp only [String.append_assoc]
      rw [← String.append_assoc]
      rfl

/-- Witness for C4: one pending task blocked on a dependency missing from
the plan. -/
theorem C4_deadlock_closure_witness :
    (allSettled [taskBlockedW] = false ∧
      [taskBlockedW].filter (readyPred []) = []) ∧
    executeLoop envNoneW [taskBlockedW] [] = [taskBlockedW].map markDeadlocked :=
  ⟨⟨by decide, by decide⟩,
   (C4_deadlock_closure envNoneW [taskBlockedW] [] (by decide) (by decide)).1⟩

/-- C10: a parsed reply whose "tasks" key is missing or an empty list
yields a Plan with an empty task list (not the generalist fallback), and
executing it returns immediately with zero tasks run and no failures. -/
theorem C10_empty_plan (fs : List (String × Json)) (req pid : String) (env : ExecEnv)
    (htasks : (Json.obj fs).getField "tasks" = none ∨
      (Json.obj fs).getField "tasks" = some (.arr [])) :
    ∃ p : Plan, createPlan (some (.obj fs)) req pid = .ok p ∧ p.tasks = [] ∧
      TaskQueue.execute env p = p ∧ p.hasFailures = false := by
  refine ⟨{ id := pid, summary := pyStr (((Json.obj fs).getField "plan_summary").getD (.str req)),
            tasks := [], originalRequest := req }, ?_, rfl, ?_, rfl⟩
  · rcases htasks with h | h <;> simp only [createPlan, h] <;> rfl
  · unfold TaskQueue.execute
    have hloop : executeLoop env ([] : List TaskSpec) [] = [] := by
      unfold executeLoop
      rfl
    rw [hloop]

/-- Witness for C10 at a concrete parsed reply carrying "tasks": []. -/
theorem C10_empty_plan_witness :
    ((Json.obj dataEmptyTasksW).getField "tasks" = none ∨
      (Json.obj dataEmptyTasksW).getField "tasks" = some (.arr [])) ∧
    ∃ p : Plan, createPlan (some (.obj dataEmptyTasksW)) "req" "pid" = .ok p ∧ p.tasks = [] ∧
      TaskQueue.execute envNoneW p = p ∧ p.hasFailures = false :=
  ⟨Or.inr rfl, C10_empty_plan dataEmptyTasksW "req" "pid" envNoneW (Or.inr rfl)⟩

/-- C1 (code bug): Orchestrator.run never reaches its return — both of
its modes hit token-accounting attribute accesses that the dataclasses
do not support. In direct mode, run_direct executes
`self._last_run_tokens = result.tokens_used` (orchestrator.py:279) on an
AgentResult lacking that field; in planned mode, run executes
`self._last_run_tokens = self.task_queue.last_run_tokens`
(orchestrator.py:355) on a TaskQueue lacking that attribute. Every
invocation therefore raises instead of returning the response string the
spec promises. -/
theorem C1_run_token_accounting_raises (env : OrchEnv) (userInput : String) :
    ∃ e, orchestratorRun env userInput = .error e := by
  unfold orchestratorRun
  by_cases hs : isSimpleTask userInput = true
  · rw [if_pos hs]
    unfold runDirect
    by_cases ha : (env.hasAgent "coder" || env.hasAgent "generalist") = true
    · rw [if_pos ha]
      cases houtcome : env.agentOutcome userInput with
      | ret r => exact ⟨_, rfl⟩
      | exc m => exact ⟨m, rfl⟩
    · rw [if_neg ha]
      exact ⟨_, rfl⟩
  · rw [if_neg hs]
    cases hcp : createPlan (env.plannerParsed userInput) userInput env.planId with
    | error e => exact ⟨e.msg, rfl⟩
    | ok plan => exact ⟨_, rfl⟩

/-- C8 counterexample: a two-task plan in which exactly one task
succeeded. The claim says the succeeded task's output ("A") is the
response; the code's shortcut requires the whole plan to be a single
task, so the response is instead the synthesizer agent's output. -/
theorem C8_counterexample :
    (planMixedW.tasks.filter (fun t => t.status == "done")).length = 1 ∧
    planMixedW.tasks.filter (fun t => t.status == "done") = [taskDoneW] ∧
    taskDoneW.result = some "A" ∧
    synthesize envSynthW "req" planMixedW = .ok "SYNTH" ∧
    ("SYNTH" : String) ≠ "A" := by
  refine ⟨by decide, by decide, rfl, rfl, by decide⟩

/-- C8 amended: the single-result shortcut requires the plan to consist
of exactly one task, and that task done — then its result (or "(sin
resultado)" when empty) is the response verbatim. Otherwise the markdown
digest of done/failed tasks goes to the "orchestrator" agent and, on a
successful synthesis, the agent's output is the response. -/
theorem C8_amended (env : OrchEnv) (userInput : String) (plan : Plan) :
    (∀ t, plan.tasks = [t] → t.status = "done" →
      synthesize env userInput plan = .ok (pyOrStr t.result "(sin resultado)")) ∧
    (∀ r, 1 < plan.tasks.length →
      resultsDigest plan ≠ "" →
      env.hasAgent "orchestrator" = true →
      env.agentOutcome (synthesisInput userInput (resultsDigest plan)) = .ret r →
      r.success = true →
      synthesize env userInput plan = .ok r.output) := by
  constructor
  · intro t h1 h2
    unfold synthesize
    rw [h1]
    simp [h2]
  · intro r h1 h2 h3 h4 h5
    unfold synthesize
    have hlen : (plan.tasks.length == 1) = false := by
      simp
      omega
    have hdig : (resultsDigest plan == "") = false := by
      simpa using h2
    cases hdone : plan.tasks.filter (fun t => t.status == "done") with
    | nil =>
      simp only [hdig, Bool.false_eq_true, if_false, h3, if_true, h4, h5]
    | cons d ds =>
      simp only [hlen, hdig, Bool.false_eq_true, if_false, h3, if_true, h4, h5]

/-- Witness for C8 amended: both branches at concrete plans. -/
theorem C8_amended_witness :
    (planOneW.tasks = [taskDoneW] ∧ taskDoneW.status = "done" ∧
      synthesize envSynthW "u" planOneW = .ok (pyOrStr taskDoneW.result "(sin resultado)")) ∧
    (1 < planMixedW.tasks.length ∧
      synthesize envSynthW "req" planMixedW = .ok arSynthW.output) :=
  ⟨⟨rfl, rfl, (C8_amended envSynthW "u" planOneW).1 taskDoneW rfl rfl⟩,
   ⟨by decide,
    (C8_amended envSynthW "req" planMixedW).2 arSynthW (by decide) (by decide) rfl rfl rfl⟩⟩

/-- renderComps distributes over list append. -/
theorem renderComps_append (a b : List String) :
    renderComps (a ++ b) = renderComps a ++ renderComps b := by
  induction a with
  | nil => simp [renderComps, String.empty_append]
  | cons c cs ih => simp [renderComps, ih, String.append_assoc]

/-- A string starts with itself extended by anything. -/
theorem pyStartswith_append (a b : String) : pyStartswith (a ++ b) a = true := by
  unfold pyStartswith
  rw [String.data_append]
  exact List.isPrefixOf_iff_prefix.mpr (List.prefix_append _ _)

/-- Component-wise containment implies the string-prefix test passes. -/
theorem renderAbs_startswith_of_within (root target : List String) (h : root <+: target) :
    pyStartswith (renderAbs target) (renderAbs root) = true := by
  obtain ⟨rest, hrest⟩ := h
  subst hrest
  unfold renderAbs
  by_cases hr : root.isEmpty = true
  · rw [if_pos hr]
    have hroot : root = [] := by
      cases root with
      | nil => rfl
      | cons x xs => simp [List.isEmpty] at hr
    subst hroot
    simp only [List.nil_append]
    by_cases hb : rest.isEmpty = true
    · rw [if_pos hb]
      decide
    · rw [if_neg hb]
      cases rest with
      | nil => simp [List.isEmpty] at hb
      | cons c cs =>
        show pyStartswith ("/" ++ c ++ renderComps cs) "/" = true
        unfold pyStartswith
        rw [String.append_assoc, String.data_append]
        exact List.isPrefixOf_iff_prefix.mpr (List.prefix_append _ _)
  · rw [if_neg hr]
    have htne : ((root ++ rest).isEmpty = true) → False := by
      intro hh
      cases root with
      | nil => simp [List.isEmpty] at hr
      | cons x xs => simp [List.isEmpty] at hh
    rw [if_neg htne]
    rw [renderComps_append]
    exact pyStartswith_append _ _

/-- C2 amended: a path-taking workspace tool accepts p exactly when the
string form of resolve(root/p) starts with the string form of
resolve(root); lexical (component-wise) containment implies acceptance,
but acceptance is only a string-prefix fact (sibling directories whose
names extend the root lexically also pass, see the counterexample); and
check_path applies no containment at all — an absolute input is served
identically whatever the workspace root is. -/
theorem C2_amended (root : List String) (rel : String) :
    (∀ target, safePath root rel = .ok target →
      target = resolveUnder root rel ∧
      pyStartswith (renderAbs target) (renderAbs root) = true) ∧
    (root <+: resolveUnder root rel → safePath root rel = .ok (resolveUnder root rel)) ∧
    (∀ root2 p, pyStartswith p "/" = true → checkPathTarget root p = checkPathTarget root2 p) := by
  refine ⟨?_, ?_, ?_⟩
  · intro target h
    unfold safePath at h
    by_cases hc : pyStartswith (renderAbs (resolveUnder root rel)) (renderAbs root) = true
    · rw [if_pos hc] at h
      cases h
      exact ⟨rfl, hc⟩
    · rw [if_neg hc] at h
      cases h
  · intro hpre
    unfold safePath
    rw [if_pos (renderAbs_startswith_of_within _ _ hpre)]
  · intro root2 p hp
    unfold checkPathTarget
    rw [if_pos hp, if_pos hp]

/-- C2 counterexample: with workspace root /a/ws, the input
"../ws-evil/f" resolves to /a/ws-evil/f — outside the workspace — yet
_safe_path accepts it, because "/a/ws-evil/f" starts with the string
"/a/ws". The claim "p is accepted only if resolve(root/p) is lexically
within resolve(root)" is false of the code. -/
theorem C2_counterexample :
    safePath ["a", "ws"] "../ws-evil/f" = .ok ["a", "ws-evil", "f"] ∧
    ¬ ["a", "ws"] <+: ["a", "ws-evil", "f"] :=
  ⟨rfl, by decide⟩

/-- Witness for C2 amended at concrete inputs: a contained relative path
is accepted, and check_path treats an absolute path identically under
two different roots. -/
theorem C2_amended_witness :
    (["a", "ws"] <+: resolveUnder ["a", "ws"] "sub/x") ∧
    safePath ["a", "ws"] "sub/x" = .ok (resolveUnder ["a", "ws"] "sub/x") ∧
    (pyStartswith "/etc" "/" = true ∧
      checkPathTarget ["a", "ws"] "/etc" = checkPathTarget ["b"] "/etc") :=
  ⟨by decide, (C2_amended ["a", "ws"] "sub/x").2.1 (by decide),
   ⟨by decide, (C2_amended ["a", "ws"] "sub/x").2.2 ["b"] "/etc" (by decide)⟩⟩

/-- One attempt block of _complete_with_retry makes at most
remaining + 1 provider calls. -/
theorem retryAux_calls (provider : Nat → ProviderCallOutcome) :
    ∀ (r i a : Nat), (retryAux provider i a r).callsMade ≤ r + 1 := by
  intro r
  induction r with
  | zero =>
    intro i a
    unfold retryAux
    cases provider i with
    | ok resp => simp
    | httpStatus s b =>
      by_cases h : (decide (400 ≤ s) && decide (s < 500)) = true
      · simp [h]
      · simp [h]
    | netError m => simp
  | succ n ih =>
    intro i a
    unfold retryAux
    cases provider i with
    | ok resp => simp
    | httpStatus s b =>
      by_cases h : (decide (400 ≤ s) && decide (s < 500)) = true
      · simp [h]
      · simp [h]
        have := ih (i + 1) (a + 1)
        omega
    | netError m =>
      simp
      have := ih (i + 1) (a + 1)
      omega

/-- The agent loop makes at most three provider calls (one plus two
retries) per remaining iteration. -/
theorem agentLoop_calls :
    ∀ (iters : Nat) (env : AgentEnv) (agentName taskId : String) (maxIterations callIdx : Nat)
      (messages : List Message) (toolCallsCount callsAcc : Nat) (sleepsAcc : List Nat),
      (agentLoop env agentName taskId maxIterations callIdx messages toolCallsCount
        callsAcc sleepsAcc iters).providerCalls ≤ callsAcc + 3 * iters := by
  intro iters
  induction iters with
  | zero =>
    intro env agentName taskId mi ci msgs tcc ca sa
    simp [agentLoop]
  | succ n ih =>
    intro env agentName taskId mi ci msgs tcc ca sa
    have hr : (completeWithRetry env.provider ci 2).callsMade ≤ 3 :=
      retryAux_calls env.provider 2 ci 0
    unfold agentLoop
    cases hres : (completeWithRetry env.provider ci 2).result with
    | error e =>
      simp only [hres]
      omega
    | ok resp =>
      simp only [hres]
      by_cases htc : resp.toolCalls.isEmpty = true
      · rw [if_pos htc]
        dsimp only
        omega
      · rw [if_neg htc]
        have := ih env agentName taskId mi (ci + (completeWithRetry env.provider ci 2).callsMade)
          (msgs ++ [{ role := "assistant", rawToolCalls := some resp.toolCalls }] ++
            resp.toolCalls.map (fun tc =>
              { role := "tool",
                content := some (ToolRegistry.call env.registry env.autoCommitEnabled
                  env.gitOutcome tc.name tc.arguments).toStr,
                toolCallId := some tc.id, name := some tc.name }))
          (tcc + resp.toolCalls.length)
          (ca + (completeWithRetry env.provider ci 2).callsMade)
          (sa ++ (completeWithRetry env.provider ci 2).sleeps)
        omega

/-- The only failure AgentResult the loop can return is the exhausted-
iterations one. -/
theorem agentLoop_failure :
    ∀ (iters : Nat) (env : AgentEnv) (agentName taskId : String) (maxIterations callIdx : Nat)
      (messages : List Message) (toolCallsCount callsAcc : Nat) (sleepsAcc : List Nat)
      (ar : AgentResult),
      (agentLoop env agentName taskId maxIterations callIdx messages toolCallsCount
        callsAcc sleepsAcc iters).result = .ok ar →
      ar.success = false →
      ar.error = some (maxIterationsError maxIterations) := by
  intro iters
  induction iters with
  | zero =>
    intro env agentName taskId mi ci msgs tcc ca sa ar h1 _h2
    simp only [agentLoop] at h1
    cases h1
    rfl
  | succ n ih =>
    intro env agentName taskId mi ci msgs tcc ca sa ar h1 h2
    unfold agentLoop at h1
    cases hres : (completeWithRetry env.provider ci 2).result with
    | error e =>
      simp only [hres] at h1
      cases h1
    | ok resp =>
      simp only [hres] at h1
      by_cases htc : resp.toolCalls.isEmpty = true
      · rw [if_pos htc] at h1
        simp only [] at h1
        cases h1
        simp at h2
      · rw [if_neg htc] at h1
        exact ih env agentName taskId mi _ _ _ _ _ ar h1 h2

/-- C5 amended: Agent.run is total (the loop is a terminating function of
its iteration budget) and makes at most 3·max_iterations provider calls
(each iteration calls the provider once plus at most two retries); every
AgentResult it returns with success=false carries the max-iterations
error. Provider failures that exhaust the retry policy are not returned
as AgentResults: they propagate out of run as exceptions (see the
counterexample), Except.error here. -/
theorem C5_agent_termination (env : AgentEnv) (agentName description : String)
    (maxIterations : Nat) (taskId taskDescription memoryContext : String) :
    (Agent.run env agentName description maxIterations taskId taskDescription
      memoryContext).providerCalls ≤ 3 * maxIterations ∧
    (∀ ar, (Agent.run env agentName description maxIterations taskId taskDescription
        memoryContext).result = .ok ar → ar.success = false →
      ar.error = some (maxIterationsError maxIterations)) := by
  constructor
  · have h := agentLoop_calls maxIterations env agentName taskId maxIterations 0
      [{ role := "system",
         content := some (systemPrompt env.registry agentName description taskDescription memoryContext) },
       { role := "user", content := some taskDescription }] 0 0 []
    simpa [Agent.run] using h
  · intro ar h1 h2
    exact agentLoop_failure maxIterations env agentName taskId maxIterations 0 _ _ _ _ ar h1 h2

/-- C5 counterexample: a provider failing with network errors on every
call. Agent.run neither returns an AgentResult within max_iterations
provider calls nor returns the max-iterations failure: the retry-
exhausted exception is re-raised out of run (task_queue later converts
it to a task failure). -/
theorem C5_counterexample :
    (Agent.run agentNetEnvW "coder" "d" 20 "t1" "do it" "").result = .error "network down" := by
  rfl

/-- Witness for C5 amended: a provider that always asks for tool calls
exhausts a 2-iteration budget; the failure result carries the
max-iterations error and at most 6 provider calls were made. -/
theorem C5_agent_termination_witness :
    (Agent.run agentToolEnvW "coder" "d" 2 "t1" "x" "").providerCalls ≤ 3 * 2 ∧
    arMaxItersW.error = some (maxIterationsError 2) :=
  ⟨(C5_agent_termination agentToolEnvW "coder" "d" 2 "t1" "x" "").1,
   (C5_agent_termination agentToolEnvW "coder" "d" 2 "t1" "x" "").2 arMaxItersW rfl rfl⟩

/-- A transient outcome with retries remaining recurses after a
2^attempt-second sleep. -/
theorem retryAux_transient_step (provider : Nat → ProviderCallOutcome) (i a r : Nat)
    (hT : isTransientB (provider i) = true) :
    retryAux provider i a (r + 1) =
      { result := (retryAux provider (i + 1) (a + 1) r).result,
        callsMade := (retryAux provider (i + 1) (a + 1) r).callsMade + 1,
        sleeps := 2 ^ a :: (retryAux provider (i + 1) (a + 1) r).sleeps } := by
  cases hp : provider i with
  | ok resp => rw [hp] at hT; simp [isTransientB] at hT
  | httpStatus s b =>
    rw [hp] at hT
    have hc : ¬((decide (400 ≤ s) && decide (s < 500)) = true) := by
      intro hcc
      simp [isTransientB, hcc] at hT
    conv_lhs => rw [retryAux.eq_def]
    rw [hp]
    dsimp only
    rw [if_neg hc]
  | netError m =>
    conv_lhs => rw [retryAux.eq_def]
    rw [hp]

/-- A transient outcome with no retries left re-raises the last error. -/
theorem retryAux_transient_last (provider : Nat → ProviderCallOutcome) (i a : Nat)
    (hT : isTransientB (provider i) = true) :
    ∃ e, retryAux provider i a 0 = { result := .error e, callsMade := 1, sleeps := [] } := by
  cases hp : provider i with
  | ok resp => rw [hp] at hT; simp [isTransientB] at hT
  | httpStatus s b =>
    rw [hp] at hT
    have hc : ¬((decide (400 ≤ s) && decide (s < 500)) = true) := by
      intro hcc
      simp [isTransientB, hcc] at hT
    refine ⟨"Error del proveedor (" ++ toString s ++ "): " ++ pyTake b 200, ?_⟩
    conv_lhs => rw [retryAux.eq_def]
    rw [hp]
    dsimp only
    rw [if_neg hc]
  | netError m =>
    refine ⟨m, ?_⟩
    conv_lhs => rw [retryAux.eq_def]
    rw [hp]

/-- C6 amended: the retry policy is as claimed — a 4xx client failure
raises immediately after a single provider call (no retry, no sleep,
body truncated to 300 chars), while transient failures (5xx, network,
timeout) are retried with exponential backoff sleeps of 1s then 2s, at
most 2 retries (3 calls) — but an exhausted or permanent provider
failure leaves _complete_with_retry as a raised exception that
propagates out of Agent.run (it does not surface as an AgentResult with
success=false; the task queue converts it to a task failure). -/
theorem C6_retry_policy (provider : Nat → ProviderCallOutcome) (idx : Nat) :
    (∀ s body, provider idx = .httpStatus s body → 400 ≤ s → s < 500 →
      completeWithRetry provider idx =
        { result := .error ("Error del proveedor (" ++ toString s ++ "): " ++ pyTake body 300),
          callsMade := 1, sleeps := [] }) ∧
    (isTransientB (provider idx) = true → isTransientB (provider (idx + 1)) = true →
      isTransientB (provider (idx + 2)) = true →
      (completeWithRetry provider idx).callsMade = 3 ∧
      (completeWithRetry provider idx).sleeps = [1, 2] ∧
      ∃ e, (completeWithRetry provider idx).result = .error e) ∧
    (∀ (env : AgentEnv) (agentName description : String) (maxIterations : Nat)
      (taskId td mc : String) (e : String),
      env.provider = provider → 0 < maxIterations →
      (completeWithRetry provider 0).result = .error e →
      (Agent.run env agentName description maxIterations taskId td mc).result = .error e) := by
  refine ⟨?_, ?_, ?_⟩
  · intro s body hp h4 h5
    unfold completeWithRetry retryAux
    rw [hp]
    dsimp only
    rw [if_pos (by simp [h4, h5])]
  · intro h0 h1 h2
    obtain ⟨e, he⟩ := retryAux_transient_last provider (idx + 2) 2 h2
    have s1 := retryAux_transient_step provider (idx + 1) 1 0 h1
    have s0 := retryAux_transient_step provider idx 0 1 h0
    unfold completeWithRetry
    refine ⟨?_, ?_, ⟨e, ?_⟩⟩ <;> simp [s0, s1, he]
  · intro env agentName description maxIterations taskId td mc e hpe hmi hres
    cases maxIterations with
    | zero => omega
    | succ n =>
      unfold Agent.run agentLoop
      rw [hpe]
      simp only [hres]

/-- C6 counterexample: a 401 client error. The claim says it surfaces as
an AgentResult with success=false and that agent-level errors are never
thrown out of Agent.run; in the code the RuntimeError raised by
_complete_with_retry propagates out of run unhandled. -/
theorem C6_counterexample :
    (Agent.run agent401EnvW "coder" "d" 20 "t1" "x" "").result =
      .error "Error del proveedor (401): unauthorized" := by
  rfl

/-- Witness for C6 amended: three consecutive network failures exhaust
the retries after sleeps of exactly 1s and 2s and three provider calls. -/
theorem C6_retry_policy_witness :
    (completeWithRetry pNetW 0).callsMade = 3 ∧
    (completeWithRetry pNetW 0).sleeps = [1, 2] ∧
    ∃ e, (completeWithRetry pNetW 0).result = .error e :=
  (C6_retry_policy pNetW 0).2.1 rfl rfl rfl

/-- The enriched error produced by _build_actionable_path_error always
starts with the handler's own message. -/
theorem buildActionable_startswith (kwargs : List (String × Json)) (e : String) :
    pyStartswith (buildActionablePathError kwargs e) e = true := by
  have hite : ∀ (c : Prop) (inst : Decidable c) (x y : String),
      pyStartswith x e = true → pyStartswith y e = true →
      pyStartswith (@ite _ c inst x y) e = true := by
    intro c inst x y hx hy
    split
    · exact hx
    · exact hy
  have hself : pyStartswith e e = true := by
    have h := pyStartswith_append e ""
    rwa [String.append_empty] at h
  unfold buildActionablePathError
  dsimp only
  refine hite _ _ _ _ (hite _ _ _ _ ?_ ?_) hself
  · simp only [String.append_assoc]
    exact pyStartswith_append _ _
  · simp only [String.append_assoc]
    exact pyStartswith_append _ _

/-- Not-found read errors carry the list_files/check_path hint. -/
theorem buildActionable_hint (kwargs : List (String × Json)) (e : String)
    (h : strContains e "Archivo no encontrado" = true) :
    ∃ p q, buildActionablePathError kwargs e = p ++ "list_files/check_path" ++ q := by
  have key : ∀ z : String, ∃ p q,
      z ++ "Sugerencia: usá list_files/check_path antes de read_file/read_source para confirmar la ruta exacta." =
        p ++ "list_files/check_path" ++ q := by
    intro z
    refine ⟨z ++ "Sugerencia: usá ",
      " antes de read_file/read_source para confirmar la ruta exacta.", ?_⟩
    rw [show ("Sugerencia: usá list_files/check_path antes de read_file/read_source para confirmar la ruta exacta." : String) =
      "Sugerencia: usá " ++ "list_files/check_path" ++ " antes de read_file/read_source para confirmar la ruta exacta." from rfl]
    simp [String.append_assoc]
  have hite2 : ∀ (c : Prop) (inst : Decidable c) (x y : String),
      (∃ p q, x = p ++ "list_files/check_path" ++ q) →
      (∃ p q, y = p ++ "list_files/check_path" ++ q) →
      ∃ p q, (@ite _ c inst x y) = p ++ "list_files/check_path" ++ q := by
    intro c inst x y hx hy
    split
    · exact hx
    · exact hy
  unfold buildActionablePathError
  dsimp only
  rw [if_pos (by simp [h])]
  exact hite2 _ _ _ _ (key _) (key _)

/-- C9 amended: ToolRegistry.call is a total function into ToolResult
(never raises): unknown names yield the not-found error; a handler
exception — including the TypeError of a keyword mismatch — is caught
and returned as success=false with an error message that starts with the
exception's own message; for read_file/read_source not-found failures
the message is further enriched with the path and the
list_files/check_path hint, but the path it shows is the already-
normalized one, the raw input having been rebound away before dispatch
(see the counterexample); the auto-commit side effect swallows every git
outcome and cannot change the returned ToolResult. -/
theorem C9_amended (reg : List ToolDefinition) (ac : Bool) (git git2 : Except String Unit)
    (toolName : String) (kwargs : List (String × Json)) :
    (ToolRegistry.call reg ac git toolName kwargs =
      ToolRegistry.call reg ac git2 toolName kwargs) ∧
    (lookupTool reg toolName = none →
      ToolRegistry.call reg ac git toolName kwargs =
        { success := false, output := none,
          error := some ("Herramienta \x27" ++ toolName ++ "\x27 no encontrada") }) ∧
    (∀ td out, lookupTool reg toolName = some td →
      td.handler (normalizedKwargs toolName kwargs) = .ok out →
      ToolRegistry.call reg ac git toolName kwargs =
        { success := true, output := some out, error := none }) ∧
    (∀ td e, lookupTool reg toolName = some td →
      td.handler (normalizedKwargs toolName kwargs) = .error e →
      ∃ m, ToolRegistry.call reg ac git toolName kwargs =
        { success := false, output := none, error := some m } ∧
        pyStartswith m e = true) ∧
    (∀ td e, lookupTool reg toolName = some td →
      td.handler (normalizedKwargs toolName kwargs) = .error e →
      READ_TOOLS_WITH_PATH.contains toolName = true →
      strContains e "Archivo no encontrado" = true →
      ∃ p q, ToolRegistry.call reg ac git toolName kwargs =
        { success := false, output := none,
          error := some (p ++ "list_files/check_path" ++ q) }) := by
  refine ⟨?_, ?_, ?_, ?_, ?_⟩
  · unfold ToolRegistry.call
    cases lookupTool reg toolName with
    | none => rfl
    | some td =>
      dsimp only
  · intro h
    unfold ToolRegistry.call
    rw [h]
  · intro td out h1 h2
    unfold ToolRegistry.call
    rw [h1]
    dsimp only
    rw [h2]
  · intro td e h1 h2
    refine ⟨if READ_TOOLS_WITH_PATH.contains toolName then
        buildActionablePathError (normalizedKwargs toolName kwargs) e else e, ?_, ?_⟩
    · unfold ToolRegistry.call
      rw [h1]
      dsimp only
      rw [h2]
    · by_cases hrt : READ_TOOLS_WITH_PATH.contains toolName = true
      · rw [if_pos hrt]
        exact buildActionable_startswith _ _
      · rw [if_neg hrt]
        have h := pyStartswith_append e ""
        rwa [String.append_empty] at h
  · intro td e h1 h2 h3 h4
    obtain ⟨p, q, hpq⟩ := buildActionable_hint (normalizedKwargs toolName kwargs) e h4
    refine ⟨p, q, ?_⟩
    unfold ToolRegistry.call
    rw [h1]
    dsimp only
    rw [h2]
    dsimp only
    rw [if_pos h3, hpq]

set_option maxRecDepth 8192 in
/-- C9 counterexample: read_file called with raw path "./a/". The
enriched not-found error shows recibido=\x27a\x27 — the normalized form,
because call rebinds kwargs before dispatch — and the raw input "./a/"
appears nowhere in it, contradicting the claim that the error carries
the raw and the normalized path. -/
theorem C9_counterexample :
    ToolRegistry.call [readFileNFW] false (.ok ()) "read_file" [("path", Json.str "./a/")] =
      { success := false, output := none, error := some enrichedMsgW } ∧
    strContains enrichedMsgW "./a/" = false := by
  exact ⟨by rfl, by rfl⟩

/-- Witness for C9 amended at a concrete registry: the not-found reply,
independence from the git outcome, and the error-path message prefix. -/
theorem C9_amended_witness :
    (ToolRegistry.call [readFileNFW] false (.ok ()) "nope" [] =
      { success := false, output := none,
        error := some ("Herramienta \x27nope\x27 no encontrada") }) ∧
    (ToolRegistry.call [readFileNFW] false (.ok ()) "read_file" [("path", Json.str "x")] =
      ToolRegistry.call [readFileNFW] false (.error "git fell over") "read_file"
        [("path", Json.str "x")]) ∧
    (∃ m, ToolRegistry.call [readFileNFW] false (.ok ()) "read_file" [("path", Json.str "x")] =
      { success := false, output := none, error := some m } ∧
      pyStartswith m "Archivo no encontrado: a" = true) :=
  ⟨(C9_amended [readFileNFW] false (.ok ()) (.ok ()) "nope" []).2.1 rfl,
   (C9_amended [readFileNFW] false (.ok ()) (.error "git fell over") "read_file"
     [("path", Json.str "x")]).1,
   (C9_amended [readFileNFW] false (.ok ()) (.ok ()) "read_file"
     [("path", Json.str "x")]).2.2.2.1 readFileNFW "Archivo no encontrado: a" rfl rfl⟩

/-- Calendar bound used throughout: months have at most 31 days. -/
theorem daysInMonth_le_31 (y m : Nat) : daysInMonth y m ≤ 31 := by
  unfold daysInMonth
  split_ifs <;> omega

/-- Months have at least 28 days. -/
theorem daysInMonth_ge_28 (y m : Nat) : 28 ≤ daysInMonth y m := by
  unfold daysInMonth
  split_ifs <;> omega

/-- The key separates into time-of-day and date parts. -/
theorem key_split (t : DT) : t.key = t.todKey + 86400000000 * t.dateKey := by
  unfold DT.key DT.todKey DT.dateKey
  ring

/-- A valid time of day is below one day of microseconds. -/
theorem todKey_lt (t : DT) (h : t.valid) : t.todKey < 86400000000 := by
  unfold DT.valid at h
  unfold DT.todKey
  omega

/-- Validity gives the sub-second bound. -/
theorem valid_usec (t : DT) (h : t.valid) : t.usec ≤ 999999 :=
  h.2.2.2.2.2.2.2.2

/-- Calendar successor: stays valid, advances the key by at least one
86400-second day, and leaves the time fields unchanged. -/
theorem addOneDay_spec (t : DT) (h : t.valid) :
    (addOneDay t).valid ∧ t.key + 86400000000 ≤ (addOneDay t).key ∧
    (addOneDay t).usec = t.usec := by
  have hd31 := daysInMonth_le_31 t.year t.month
  have hd28a := daysInMonth_ge_28 t.year (t.month + 1)
  have hd28b := daysInMonth_ge_28 (t.year + 1) 1
  unfold DT.valid at h
  unfold addOneDay
  by_cases hc1 : t.day < daysInMonth t.year t.month
  · rw [if_pos hc1]
    refine ⟨?_, ?_, rfl⟩
    · unfold DT.valid
      dsimp only
      omega
    · unfold DT.key
      dsimp only
      omega
  · rw [if_neg hc1]
    by_cases hc2 : t.month < 12
    · rw [if_pos hc2]
      refine ⟨?_, ?_, rfl⟩
      · unfold DT.valid
        dsimp only
        omega
      · unfold DT.key
        dsimp only
        omega
    · rw [if_neg hc2]
      refine ⟨?_, ?_, rfl⟩
      · unfold DT.valid
        dsimp only
        omega
      · unfold DT.key
        dsimp only
        omega

/-- Iterated days: validity, a key bound linear in the day count, and
unchanged microseconds. -/
theorem addDays_spec (n : Nat) (t : DT) (h : t.valid) :
    (addDays n t).valid ∧ t.key + n * 86400000000 ≤ (addDays n t).key ∧
    (addDays n t).usec = t.usec := by
  induction n generalizing t with
  | zero =>
    refine ⟨h, ?_, rfl⟩
    simp [addDays]
  | succ n ih =>
    have h1 := addOneDay_spec t h
    have h2 := ih (addOneDay t) h1.1
    refine ⟨?_, ?_, ?_⟩
    · simpa [addDays] using h2.1
    · have e1 := h1.2.1
      have e2 := h2.2.1
      show t.key + (n + 1) * 86400000000 ≤ (addDays n (addOneDay t)).key
      omega
    · show (addDays n (addOneDay t)).usec = t.usec
      rw [h2.2.2, h1.2.2]

/-- timedelta addition of us microseconds: stays valid and advances the
key by exactly at least us. -/
theorem addUsec_spec (t : DT) (us : Nat) (h : t.valid) :
    (addUsec t us).valid ∧ t.key + us ≤ (addUsec t us).key := by
  unfold addUsec
  dsimp only
  set rem := (t.todKey + us) % 86400000000 with hremdef
  set days := (t.todKey + us) / 86400000000 with hdaysdef
  set t2 : DT := { t with hour := rem / 3600000000, minute := rem / 60000000 % 60, second := rem / 1000000 % 60, usec := rem % 1000000 } with ht2
  have hrem : rem < 86400000000 := by
    rw [hremdef]
    exact Nat.mod_lt _ (by norm_num)
  have ht2v : t2.valid := by
    rw [ht2]
    unfold DT.valid at h ⊢
    dsimp only
    omega
  have ht2key : t2.key = rem + 86400000000 * t.dateKey := by
    rw [ht2]
    unfold DT.key DT.dateKey
    dsimp only
    omega
  have hadd := addDays_spec days t2 ht2v
  have hks := key_split t
  refine ⟨hadd.1, ?_⟩
  have h2 := hadd.2.1
  rw [ht2key] at h2
  have hdm : rem + 86400000000 * days = t.todKey + us := by
    rw [hremdef, hdaysdef]
    omega
  unfold DT.todKey DT.dateKey at *
  omega

/-- Truncation to whole seconds keeps validity. -/
theorem truncSec_valid (t : DT) (h : t.valid) : (truncSec t).valid := by
  unfold DT.valid at h ⊢
  unfold truncSec
  dsimp only
  omega

/-- Truncation is the identity on whole-second values. -/
theorem truncSec_self (t : DT) (h : t.usec = 0) : truncSec t = t := by
  cases t
  unfold truncSec
  simp_all

/-- Whole-second truncation is monotone for the key order. -/
theorem truncSec_mono (a c : DT) (ha : a.usec ≤ 999999) (hc : c.usec ≤ 999999)
    (h : a.key ≤ c.key) : (truncSec a).key ≤ (truncSec c).key := by
  unfold truncSec DT.key at *
  dsimp only at *
  omega

/-- C7 amended: compute_next_run is a pure deterministic function of
(spec, t); for every parse-accepted spec and valid time t, a returned
timestamp denotes the whole-second truncation of a valid instant at
least t — hence an instant at least the whole-second truncation of t
and itself valid. The underlying instant is strictly greater than t for
every spec except an interval whose positive float minutes convert to a
zero-microsecond timedelta (minutes below about 8.3e-9 round to zero
increment), where the computed instant is t itself; and because to_iso
drops sub-second precision the denoted instant need not be strictly
greater than t even when the underlying one is (see the
counterexample). -/
theorem C7_compute_next_run (spec : Schedule) (after : DT) (r : DT)
    (hs : spec.parseAccepted) (ha : after.valid)
    (hr : computeNextRun spec after = some r) :
    (∃ c, c.valid ∧ r = truncSec c ∧ after.key ≤ c.key ∧
      (spec ≠ .interval 0 → after.key < c.key)) ∧
    (truncSec after).key ≤ r.key ∧ r.valid ∧
    (∀ spec2 after2, spec2 = spec → after2 = after →
      computeNextRun spec2 after2 = some r) := by
  have hmain : ∃ c, c.valid ∧ r = truncSec c ∧ after.key ≤ c.key ∧
      (spec ≠ Schedule.interval 0 → after.key < c.key) := by
    cases spec with
    | once at_ =>
      dsimp only [Schedule.parseAccepted] at hs
      unfold computeNextRun at hr
      dsimp only at hr
      by_cases hlt : after.key < at_.key
      · rw [if_pos hlt] at hr
        injection hr with hr2
        subst hr2
        exact ⟨at_, hs, rfl, Nat.le_of_lt hlt, fun _ => hlt⟩
      · rw [if_neg hlt] at hr
        simp at hr
    | interval us =>
      unfold computeNextRun at hr
      dsimp only at hr
      injection hr with hr2
      subst hr2
      have hadd := addUsec_spec after us ha
      refine ⟨addUsec after us, hadd.1, rfl, ?_, ?_⟩
      · have := hadd.2
        omega
      · intro hne
        have hus : us ≠ 0 := fun h0 => hne (by rw [h0])
        have := hadd.2
        omega
    | daily hh mi =>
      obtain ⟨hs1, hs2⟩ := hs
      unfold computeNextRun at hr
      dsimp only at hr
      set c0 : DT := { after with hour := hh, minute := mi, second := 0, usec := 0 } with hc0
      have hc0v : c0.valid := by
        rw [hc0]
        unfold DT.valid at ha ⊢
        dsimp only
        omega
      have hdk : c0.dateKey = after.dateKey := rfl
      have hk2 := key_split c0
      have hk3 := key_split after
      have hk4 := todKey_lt after ha
      by_cases hcle : c0.key ≤ after.key
      · rw [if_pos hcle] at hr
        injection hr with hr2
        subst hr2
        have hadd := addDays_spec 1 c0 hc0v
        refine ⟨addDays 1 c0, hadd.1, ?_, ?_, fun _ => ?_⟩
        · refine (truncSec_self _ ?_).symm
          rw [hadd.2.2]
        · have h1 := hadd.2.1
          omega
        · have h1 := hadd.2.1
          omega
      · rw [if_neg hcle] at hr
        injection hr with hr2
        subst hr2
        exact ⟨c0, hc0v, (truncSec_self _ rfl).symm, by omega, fun _ => by omega⟩
    | weekly hh mi day =>
      obtain ⟨⟨hs1, hs2⟩, _hs3⟩ := hs
      unfold computeNextRun at hr
      dsimp only at hr
      set base : DT := { after with hour := hh, minute := mi, second := 0, usec := 0 } with hbase
      set k := ((WEEKDAYS.lookup (pyLower day)).getD 0 + 7 - after.weekday) % 7 with hk
      have hbv : base.valid := by
        rw [hbase]
        unfold DT.valid at ha ⊢
        dsimp only
        omega
      have hbdk : base.dateKey = after.dateKey := rfl
      have haddk := addDays_spec k base hbv
      have hk2 := key_split base
      have hk3 := key_split after
      have hk4 := todKey_lt after ha
      by_cases hcle : (addDays k base).key ≤ after.key
      · rw [if_pos hcle] at hr
        injection hr with hr2
        subst hr2
        have hadd7 := addDays_spec 7 (addDays k base) haddk.1
        refine ⟨addDays 7 (addDays k base), hadd7.1, ?_, ?_, fun _ => ?_⟩
        · refine (truncSec_self _ ?_).symm
          rw [hadd7.2.2, haddk.2.2]
        · have h1 := hadd7.2.1
          have h2 := haddk.2.1
          omega
        · have h1 := hadd7.2.1
          have h2 := haddk.2.1
          omega
      · rw [if_neg hcle] at hr
        injection hr with hr2
        subst hr2
        refine ⟨addDays k base, haddk.1, ?_, by omega, fun _ => by omega⟩
        refine (truncSec_self _ ?_).symm
        rw [haddk.2.2]
    | monthly hh mi dom =>
      obtain ⟨⟨hs1, hs2⟩, hs3, hs4⟩ := hs
      unfold computeNextRun at hr
      dsimp only at hr
      set c0 : DT := { after with day := dom, hour := hh, minute := mi, second := 0, usec := 0 } with hc0
      have hd28 := daysInMonth_ge_28 after.year after.month
      have hd31 := daysInMonth_le_31 after.year after.month
      have hc0v : c0.valid := by
        rw [hc0]
        unfold DT.valid at ha ⊢
        dsimp only
        omega
      by_cases hcle : c0.key ≤ after.key
      · rw [if_pos hcle] at hr
        by_cases hdec : (after.month == 12) = true
        · rw [if_pos hdec] at hr
          injection hr with hr2
          subst hr2
          have hm12 : after.month = 12 := by simpa using hdec
          have hd28b := daysInMonth_ge_28 (after.year + 1) 1
          have hc1v : ({ c0 with year := after.year + 1, month := 1 } : DT).valid := by
            rw [hc0]
            unfold DT.valid at ha ⊢
            dsimp only
            omega
          refine ⟨_, hc1v, (truncSec_self _ rfl).symm, ?_, fun _ => ?_⟩
          · unfold DT.valid at ha
            unfold DT.key
            rw [hc0]
            dsimp only
            omega
          · unfold DT.valid at ha
            unfold DT.key
            rw [hc0]
            dsimp only
            omega
        · rw [if_neg hdec] at hr
          injection hr with hr2
          subst hr2
          have hm12 : ¬ after.month = 12 := by simpa using hdec
          have hd28c := daysInMonth_ge_28 after.year (after.month + 1)
          have hc1v : ({ c0 with month := after.month + 1 } : DT).valid := by
            rw [hc0]
            unfold DT.valid at ha ⊢
            dsimp only
            omega
          refine ⟨_, hc1v, (truncSec_self _ rfl).symm, ?_, fun _ => ?_⟩
          · unfold DT.valid at ha
            unfold DT.key
            rw [hc0]
            dsimp only
            omega
          · unfold DT.valid at ha
            unfold DT.key
            rw [hc0]
            dsimp only
            omega
      · rw [if_neg hcle] at hr
        injection hr with hr2
        subst hr2
        exact ⟨c0, hc0v, (truncSec_self _ rfl).symm, by omega, fun _ => by omega⟩
  obtain ⟨c, hcv, hrc, hkle, hkst⟩ := hmain
  refine ⟨⟨c, hcv, hrc, hkle, hkst⟩, ?_, ?_, ?_⟩
  · rw [hrc]
    exact truncSec_mono after c (valid_usec after ha) (valid_usec c hcv) hkle
  · rw [hrc]
    exact truncSec_valid c hcv
  · intro s2 a2 e1 e2
    rw [e1, e2]
    exact hr

/-- C7 counterexample: a parse-accepted once spec whose instant is half a
second after t. compute_next_run returns it, but to_iso renders whole
seconds, so the returned timestamp denotes exactly t — not an instant
strictly greater than t as the claim states. -/
theorem C7_counterexample :
    (Schedule.once onceHalfW).parseAccepted ∧ afterZeroW.valid ∧
    computeNextRun (.once onceHalfW) afterZeroW = some afterZeroW :=
  ⟨by decide, by decide, by decide⟩

/-- Witness for C7 amended at a concrete daily schedule. -/
theorem C7_compute_next_run_witness :
    (Schedule.daily 10 0).parseAccepted ∧ dailyAfterW.valid ∧
    computeNextRun (.daily 10 0) dailyAfterW = some dailyNextW ∧
    (truncSec dailyAfterW).key ≤ dailyNextW.key ∧ dailyNextW.valid :=
  ⟨by decide, by decide, by decide,
   (C7_compute_next_run (.daily 10 0) dailyAfterW dailyNextW (by decide) (by decide)
     (by decide)).2.1,
   (C7_compute_next_run (.daily 10 0) dailyAfterW dailyNextW (by decide) (by decide)
     (by decide)).2.2.1⟩

end BBClaw
